import Mathlib

/-!
Shallow embedding of the code-execution and exam-attempt routes of the
examline backend (src/examline/src/routes/codeExecution.route.ts and
src/examline/src/routes/examAttempt.route.ts).  The execution engine
(codeExecution.service) is not part of the sources, so its behaviour is
a parameter of every definition that calls it: a function from the call
index and the stdin text to an outcome that is either a normal
ExecResult or a thrown error message.
-/

namespace Examline

/-- ECMAScript whitespace (WhiteSpace ∪ LineTerminator), the character
class removed by `String.prototype.trim`. -/
def isJsWhitespace (c : Char) : Bool :=
  c = ' ' || c = '\t' || c = '\n' || c = '\r' ||
  c.val = 0x0B || c.val = 0x0C || c.val = 0xA0 || c.val = 0x1680 ||
  (0x2000 ≤ c.val && c.val ≤ 0x200A) ||
  c.val = 0x2028 || c.val = 0x2029 || c.val = 0x202F || c.val = 0x205F ||
  c.val = 0x3000 || c.val = 0xFEFF

/-- Drop the whitespace suffix of a character list. -/
def trimRightList (l : List Char) : List Char :=
  (l.reverse.dropWhile isJsWhitespace).reverse

/-- Drop the whitespace prefix and suffix of a character list. -/
def trimList (l : List Char) : List Char :=
  trimRightList (l.dropWhile isJsWhitespace)

/-- JavaScript `s.trim()`. -/
def jsTrim (s : String) : String :=
  String.mk (trimList s.data)

/-- JavaScript `o || d` on a possibly-missing string: `undefined`/`null`
and the empty string are falsy and give the default. -/
def jsOrElse (o : Option String) (d : String) : String :=
  match o with
  | none => d
  | some s => if s = "" then d else s

/-- JavaScript truthiness of a possibly-missing string (used by the
`if (!code || !language)` request validations). -/
def jsTruthy (o : Option String) : Bool :=
  match o with
  | none => false
  | some s => s ≠ ""

/-- Result object resolved by `codeExecutionService.executeCode`
(shape observed at the call sites; the service itself is not in the
sources). `output` and `error` may be absent, `exitCode` may be null
(process killed). -/
structure ExecResult where
  output : Option String
  error : Option String
  exitCode : Option Int
  executionTime : Nat
deriving DecidableEq, Repr

/-- One call to `codeExecutionService.executeCode` either resolves with
an `ExecResult` or throws an error carrying a possibly-absent message. -/
inductive EngineOutcome where
  | ok (r : ExecResult)
  | thrown (msg : Option String)
deriving DecidableEq, Repr

/-- The engine's behaviour over a whole request: outcome of the n-th
`executeCode` call as a function of the call index and the stdin text. -/
def Engine := Nat → String → EngineOutcome

/-- A test case as stored on an exam / sent in a request body; all
fields may be absent. -/
structure TestCase where
  input : Option String
  expectedOutput : Option String
  description : Option String
deriving DecidableEq, Repr

/-! ## Batch test loop of POST /code-execution/execute
(codeExecution.route.ts lines 157-202) -/

/-- One entry pushed onto `testResults` by the /execute batch loop.
`actualOutput` and `executionTime` are `none` when the response object
omits the field (the catch branch builds the entry without them; a JSON
response also drops a field whose value is `undefined`). -/
structure ExecCaseEntry where
  input : Option String
  expectedOutput : Option String
  actualOutput : Option String
  passed : Bool
  error : Option String
  executionTime : Option Nat
deriving DecidableEq, Repr

/-- Line 173: `result.output?.trim() === testCase.expectedOutput?.trim()`
(strict equality of optionally-chained trims; two absent values compare
equal). -/
def passedExecute (output expectedOutput : Option String) : Bool :=
  (output.map jsTrim) == (expectedOutput.map jsTrim)

/-- Body of the /execute batch loop for one test case: the try branch
runs `executeCode` with `testCase.input || ''` and pushes the full
entry; the catch branch pushes an entry with `passed: false` and
`err.message || 'Error desconocido'`, omitting `actualOutput` and
`executionTime`. -/
def runCaseExecute (exec : Engine) (i : Nat) (tc : TestCase) : ExecCaseEntry :=
  match exec i (jsOrElse tc.input "") with
  | .ok r =>
      { input := tc.input
        expectedOutput := tc.expectedOutput
        actualOutput := r.output.map jsTrim
        passed := passedExecute r.output tc.expectedOutput
        error := r.error
        executionTime := some r.executionTime }
  | .thrown msg =>
      { input := tc.input
        expectedOutput := tc.expectedOutput
        actualOutput := none
        passed := false
        error := some (jsOrElse msg "Error desconocido")
        executionTime := none }

/-- The `for (const testCase of testCases)` loop of /execute, started at
call index `i`: accumulates the pushed `testResults` and the
`passedTests` counter. -/
def execLoop (exec : Engine) : Nat → List TestCase → List ExecCaseEntry × Nat
  | _, [] => ([], 0)
  | i, tc :: rest =>
      let entry := runCaseExecute exec i tc
      let tail := execLoop exec (i + 1) rest
      (entry :: tail.1, (if entry.passed then 1 else 0) + tail.2)

/-- The batch part of the /execute response body:
`{ score, passedTests, totalTests, testResults }`. -/
structure ExecBatch where
  score : ℚ
  passedTests : Nat
  totalTests : Nat
  testResults : List ExecCaseEntry
deriving DecidableEq, Repr

/-- The /execute test-cases branch: run the loop over all cases, then
`score = (passedTests / testCases.length) * 100`. -/
def runBatchExecute (exec : Engine) (testCases : List TestCase) : ExecBatch :=
  let run := execLoop exec 0 testCases
  { score := ((run.2 : ℚ) / (testCases.length : ℚ)) * 100
    passedTests := run.2
    totalTests := testCases.length
    testResults := run.1 }

/-! ## Grading loop of PUT /exam-attempts/:attemptId/finish
(examAttempt.route.ts lines 209-262) -/

/-- One entry pushed onto `testResults` by the finish grading loop.
Both branches set every field; the catch branch stores the raw
`testCase.expectedOutput` in `expected`, the empty string in `actual`,
the raw `error.message` and `executionTime: 0`. -/
structure FinishCaseEntry where
  description : String
  passed : Bool
  expected : Option String
  actual : String
  error : Option String
  executionTime : Nat
deriving DecidableEq, Repr

/-- Lines 229-231: trim both sides (with `|| ''` defaults) and require
`result.exitCode === 0`. -/
def passedFinish (output expectedOutput : Option String) (exitCode : Option Int) : Bool :=
  jsTrim (jsOrElse output "") == jsTrim (jsOrElse expectedOutput "") && exitCode == some 0

/-- Body of the finish grading loop for one test case. -/
def runCaseFinish (exec : Engine) (i : Nat) (tc : TestCase) : FinishCaseEntry :=
  match exec i (jsOrElse tc.input "") with
  | .ok r =>
      { description := jsOrElse tc.description "Test sin descripción"
        passed := passedFinish r.output tc.expectedOutput r.exitCode
        expected := some (jsTrim (jsOrElse tc.expectedOutput ""))
        actual := jsTrim (jsOrElse r.output "")
        error := r.error
        executionTime := r.executionTime }
  | .thrown msg =>
      { description := jsOrElse tc.description "Test sin descripción"
        passed := false
        expected := tc.expectedOutput
        actual := ""
        error := msg
        executionTime := 0 }

/-- The `for (const testCase of exam.testCases)` loop of /finish,
accumulating `testResults` and the `testsPasados` counter. -/
def finishLoop (exec : Engine) : Nat → List TestCase → List FinishCaseEntry × Nat
  | _, [] => ([], 0)
  | i, tc :: rest =>
      let entry := runCaseFinish exec i tc
      let tail := finishLoop exec (i + 1) rest
      (entry :: tail.1, (if entry.passed then 1 else 0) + tail.2)

/-- Outcome of the finish grading loop plus the percentage score
(`puntaje = testsPasados / totalTests * 100`). -/
structure FinishBatch where
  puntaje : ℚ
  testsPasados : Nat
  testResults : List FinishCaseEntry
deriving DecidableEq, Repr

/-- The automatic-evaluation block of /finish over the exam's test
cases. -/
def runBatchFinish (exec : Engine) (testCases : List TestCase) : FinishBatch :=
  let run := finishLoop exec 0 testCases
  { puntaje := ((run.2 : ℚ) / (testCases.length : ℚ)) * 100
    testsPasados := run.2
    testResults := run.1 }

/-! ## Persistent records used by the routes -/

/-- An exam row, to the extent the two routes read it. -/
structure ExamRec where
  tipo : String
  lenguajeProgramacion : Option String
  testCases : Option (List TestCase)
  preguntas : List Nat
deriving Repr

/-- An exam-attempt row joined with its exam (`include: { exam: true }`). -/
structure AttemptRec where
  userId : Nat
  examId : Nat
  estado : String
  examTipo : String
deriving DecidableEq, Repr

/-- An examFile row, to the extent /finish reads it.  `updatedAt` is an
abstract timestamp ordered by ≤. -/
structure ExamFile where
  examId : Nat
  userId : Nat
  filename : String
  version : String
  content : Option String
  updatedAt : Nat
deriving DecidableEq, Repr

/-! ## POST /code-execution/run (codeExecution.route.ts lines 15-75) -/

/-- Response of the /run handler.  The second component of the handler's
result is the trace of stdin texts passed to `executeCode`, recording
how often the execution service was invoked. -/
inductive RunResponse where
  | badRequest (error : String)
  | notFound (error : String)
  | ok (success : Bool) (output : Option String) (error : Option String)
      (exitCode : Option Int) (executionTime : Nat)
  | serverError (details : Option String)
deriving DecidableEq, Repr

/-- The /run handler: request-shape validations, the optional exam
check, then one `executeCode` call with `input || ''`. -/
def runHandler (exec : Engine) (code language input : Option String)
    (examId : Option Nat) (examLookup : Nat → Option ExamRec) :
    RunResponse × List String :=
  if ¬ (jsTruthy code ∧ jsTruthy language) then
    (.badRequest "Código y lenguaje son requeridos", [])
  else if ¬ (language = some "python" ∨ language = some "javascript") then
    (.badRequest "Lenguaje no soportado. Use \"python\" o \"javascript\"", [])
  else
    let examCheck : Option RunResponse :=
      match examId with
      | some n =>
          if n ≠ 0 then
            match examLookup n with
            | none => some (.notFound "Examen no encontrado")
            | some ex =>
                if ex.tipo ≠ "programming" then
                  some (.badRequest "Este examen no es de tipo programación")
                else none
          else none
      | none => none
    match examCheck with
    | some resp => (resp, [])
    | none =>
        let inp := jsOrElse input ""
        match exec 0 inp with
        | .ok r => (.ok true r.output r.error r.exitCode r.executionTime, [inp])
        | .thrown m => (.serverError m, [inp])

/-! ## POST /code-execution/validate (codeExecution.route.ts lines 81-105) -/

/-- One call to `codeExecutionService.validateSyntax` (service not in
the sources) resolves with a validation object or throws. -/
inductive ValidateOutcome where
  | ok (valid : Bool) (errors : List String)
  | thrown (msg : Option String)
deriving DecidableEq, Repr

/-- Response of the /validate handler. -/
inductive ValidateResponse where
  | badRequest (error : String)
  | ok (valid : Bool) (errors : List String)
  | serverError (details : Option String)
deriving DecidableEq, Repr

/-- The /validate handler.  It checks only that `code` and `language`
are truthy; the second component traces the `(code, language)` pairs
passed to `validateSyntax`. -/
def validateHandler (validator : String → String → ValidateOutcome)
    (code language : Option String) :
    ValidateResponse × List (String × String) :=
  if jsTruthy code ∧ jsTruthy language then
    match code, language with
    | some c, some l =>
        (match validator c l with
         | .ok v e => (.ok v e, [(c, l)])
         | .thrown m => (.serverError m, [(c, l)]))
    | none, _ => (.badRequest "Código y lenguaje son requeridos", [])
    | _, none => (.badRequest "Código y lenguaje son requeridos", [])
  else
    (.badRequest "Código y lenguaje son requeridos", [])

/-! ## POST /code-execution/execute (codeExecution.route.ts lines 118-231) -/

/-- Response of the /execute handler. -/
inductive ExecuteResponse where
  | badRequest (error : String)
  | single (success : Bool) (output : Option String) (error : Option String)
      (exitCode : Option Int) (executionTime : Nat)
  | batch (b : ExecBatch)
  | serverError (details : Option String)
deriving DecidableEq, Repr

/-- The /execute handler: validations, then the custom-input branch
(taken whenever `customInput !== undefined && customInput !== null`),
then the test-cases branch (non-empty array), then the no-input run.
The second component traces the stdin texts passed to `executeCode`. -/
def executeHandler (exec : Engine) (code language : Option String)
    (testCases : Option (List TestCase)) (customInput : Option String) :
    ExecuteResponse × List String :=
  if ¬ (jsTruthy code ∧ jsTruthy language) then
    (.badRequest "Código y lenguaje son requeridos", [])
  else if ¬ (language = some "python" ∨ language = some "javascript") then
    (.badRequest "Lenguaje no soportado. Use \"python\" o \"javascript\"", [])
  else
    match customInput with
    | some s =>
        (match exec 0 s with
         | .ok r => (.single (!jsTruthy r.error) r.output r.error r.exitCode r.executionTime, [s])
         | .thrown m => (.serverError m, [s]))
    | none =>
        match testCases with
        | some tcs =>
            if tcs.length > 0 then
              (.batch (runBatchExecute exec tcs), tcs.map (fun tc => jsOrElse tc.input ""))
            else
              (match exec 0 "" with
               | .ok r => (.single (!jsTruthy r.error) r.output r.error r.exitCode r.executionTime, [""])
               | .thrown m => (.serverError m, [""]))
        | none =>
            match exec 0 "" with
            | .ok r => (.single (!jsTruthy r.error) r.output r.error r.exitCode r.executionTime, [""])
            | .thrown m => (.serverError m, [""])

/-! ## PUT /exam-attempts/:attemptId/finish (examAttempt.route.ts lines 135-301) -/

/-- The `where` filter of the `examFile.findFirst` call of /finish:
same exam, same user, the conventional main filename, version
`'manual'`. -/
def isMainMatch (examId userId : Nat) (filename : String) (f : ExamFile) : Bool :=
  f.examId == examId && f.userId == userId && f.filename == filename && f.version == "manual"

/-- Selection of the first row under `orderBy: { updatedAt: 'desc' }`:
the first element of maximal `updatedAt`. -/
def pickLatest : Option ExamFile → List ExamFile → Option ExamFile
  | acc, [] => acc
  | none, f :: rest => pickLatest (some f) rest
  | some g, f :: rest => pickLatest (some (if g.updatedAt < f.updatedAt then f else g)) rest

/-- The `examFile.findFirst` call of /finish (lines 185-195). -/
def findMainFile (files : List ExamFile) (examId userId : Nat) (filename : String) :
    Option ExamFile :=
  pickLatest none (files.filter (isMainMatch examId userId filename))

/-- Line 182: the conventional entry-point filename,
`exam.lenguajeProgramacion === 'python' ? 'main.py' : 'main.js'`. -/
def mainFileName (ex : ExamRec) : String :=
  if ex.lenguajeProgramacion = some "python" then "main.py" else "main.js"

/-- Response of the /finish handler.  The `finished*` constructors stand
for the update that sets `estado: "finalizado"`; `finishedProg` carries
the `codigoProgramacion` that was stored and graded and, when the exam
has test cases, the computed `puntaje` and `testResults`. -/
inductive FinishResult where
  | notFound (error : String)
  | forbidden (error : String)
  | badRequest (error : String)
  | finishedProg (codigoProgramacion : String) (puntaje : Option ℚ)
      (testResults : Option (List FinishCaseEntry))
  | finishedMC (puntaje : Option ℚ)
  | finishedOther
deriving DecidableEq, Repr

/-- The programming branch of /finish (lines 170-263): look up the
manually saved main file; with none the request fails, otherwise its
content is stored and, when the exam has test cases, graded. -/
def finishProgramming (exec : String → Engine) (att : AttemptRec) (uid : Nat)
    (ex : ExamRec) (files : List ExamFile) : FinishResult :=
  match findMainFile files att.examId uid (mainFileName ex) with
  | none =>
      .badRequest ("Debes guardar el archivo principal \"" ++ mainFileName ex ++
        "\" antes de finalizar el examen")
  | some mainFile =>
      let codigoParaEvaluar := jsOrElse mainFile.content ""
      match ex.testCases with
      | some tcs =>
          if tcs.length > 0 then
            let b := runBatchFinish (exec codigoParaEvaluar) tcs
            .finishedProg codigoParaEvaluar (some b.puntaje) (some b.testResults)
          else .finishedProg codigoParaEvaluar none none
      | none => .finishedProg codigoParaEvaluar none none

/-- The multiple-choice branch of /finish (lines 264-288). -/
def finishMultipleChoice (bodyRespuestas : Option (Nat → Option Nat))
    (exam : Option ExamRec) : FinishResult :=
  match exam with
  | some ex =>
      if ex.preguntas.length > 0 then
        let correctas :=
          ((List.range ex.preguntas.length).filter (fun idx =>
            match bodyRespuestas with
            | none => false
            | some resp =>
                match resp idx with
                | none => false
                | some a => a == ex.preguntas.get! idx)).length
        .finishedMC (some (((correctas : ℚ) / (ex.preguntas.length : ℚ)) * 100))
      else .finishedMC none
  | none => .finishedMC none

/-- The /finish handler.  `exec` takes the code to execute, the call
index and the stdin text (the engine is not in the sources).  `attempt`
is the result of the attempt lookup (joined with its exam), `exam` the
result of the exam lookup inside the programming branch, `files` the
examFile table, `bodyRespuestas`/`bodyCode` the request body.  The body
field `codigoProgramacion` is destructured by the route but never
read. -/
def finishHandler (exec : String → Engine) (attempt : Option AttemptRec) (uid : Nat)
    (bodyRespuestas : Option (Nat → Option Nat)) (bodyCode : Option String)
    (exam : Option ExamRec) (files : List ExamFile) : FinishResult :=
  match attempt with
  | none => .notFound "Intento no encontrado"
  | some att =>
      if att.userId ≠ uid then .forbidden "No autorizado"
      else if att.estado ≠ "en_progreso" then .badRequest "El intento ya fue finalizado"
      else if att.examTipo = "programming" then
        match exam with
        | none => .notFound "Examen no encontrado"
        | some ex => finishProgramming exec att uid ex files
      else if att.examTipo = "multiple_choice" then
        finishMultipleChoice bodyRespuestas exam
      else .finishedOther

/-- The stored `estado` of the attempt after the /finish request: the
update to `"finalizado"` runs only on the success paths; every error
response leaves the row untouched. -/
def estadoAfter (att : AttemptRec) (r : FinishResult) : String :=
  match r with
  | .finishedProg _ _ _ => "finalizado"
  | .finishedMC _ => "finalizado"
  | .finishedOther => "finalizado"
  | _ => att.estado

/-! ## Helper lemmas on trimming -/

theorem dropWhile_append_all {p : Char → Bool} {ws l : List Char}
    (h : ∀ x ∈ ws, p x = true) :
    (ws ++ l).dropWhile p = l.dropWhile p := by
  induction ws with
  | nil => rfl
  | cons a t ih =>
      simp only [List.cons_append, List.dropWhile_cons]
      rw [h a (by simp)]
      simp only [if_true]
      exact ih (fun x hx => h x (by simp [hx]))

theorem dropWhile_append_ne_nil {p : Char → Bool} {l : List Char} (m : List Char)
    (h : l.dropWhile p ≠ []) :
    (l ++ m).dropWhile p = l.dropWhile p ++ m := by
  induction l with
  | nil => exact absurd rfl h
  | cons a t ih =>
      simp only [List.cons_append, List.dropWhile_cons] at *
      by_cases hp : p a = true
      · rw [hp] at h ⊢
        simp only [if_true] at h ⊢
        exact ih h
      · rw [eq_false_of_ne_true hp] at h ⊢
        simp

theorem trimRightList_append {ws l : List Char}
    (h : ∀ x ∈ ws, isJsWhitespace x = true) :
    trimRightList (l ++ ws) = trimRightList l := by
  unfold trimRightList
  rw [List.reverse_append, dropWhile_append_all (fun x hx => h x (by simpa using hx))]

theorem trimList_pad {ws₁ ws₂ l : List Char}
    (h₁ : ∀ x ∈ ws₁, isJsWhitespace x = true)
    (h₂ : ∀ x ∈ ws₂, isJsWhitespace x = true) :
    trimList (ws₁ ++ l ++ ws₂) = trimList l := by
  unfold trimList
  rw [List.append_assoc, dropWhile_append_all h₁]
  by_cases hl : l.dropWhile isJsWhitespace = []
  · have hall : ∀ x ∈ l, isJsWhitespace x = true := List.dropWhile_eq_nil_iff.mp hl
    have : (l ++ ws₂).dropWhile isJsWhitespace = [] := by
      refine List.dropWhile_eq_nil_iff.mpr ?_
      intro x hx
      rcases List.mem_append.mp hx with hx | hx
      · exact hall x hx
      · exact h₂ x hx
    rw [this, hl]
  · rw [dropWhile_append_ne_nil ws₂ hl, trimRightList_append h₂]

theorem jsTrim_pad (p₁ a p₂ : String)
    (h₁ : ∀ x ∈ p₁.data, isJsWhitespace x = true)
    (h₂ : ∀ x ∈ p₂.data, isJsWhitespace x = true) :
    jsTrim (p₁ ++ a ++ p₂) = jsTrim a := by
  unfold jsTrim
  have : (p₁ ++ a ++ p₂).data = p₁.data ++ a.data ++ p₂.data := by
    simp [String.data_append]
  rw [this, trimList_pad h₁ h₂]

/-! ## Helper lemmas on the two batch loops -/

theorem execLoop_length (exec : Engine) (i : Nat) (tcs : List TestCase) :
    (execLoop exec i tcs).1.length = tcs.length := by
  induction tcs generalizing i with
  | nil => rfl
  | cons tc rest ih => simp [execLoop, ih]

theorem execLoop_get? (exec : Engine) (i j : Nat) (tcs : List TestCase) :
    (execLoop exec i tcs).1.get? j =
      (tcs.get? j).map (fun tc => runCaseExecute exec (i + j) tc) := by
  induction tcs generalizing i j with
  | nil => simp [execLoop]
  | cons tc rest ih =>
      cases j with
      | zero => simp [execLoop]
      | succ j =>
          simp only [execLoop, List.get?_cons_succ]
          rw [ih (i + 1) j]
          have : i + 1 + j = i + (j + 1) := by omega
          rw [this]

theorem execLoop_count (exec : Engine) (i : Nat) (tcs : List TestCase) :
    (execLoop exec i tcs).2 =
      ((execLoop exec i tcs).1.filter (fun e => e.passed)).length := by
  induction tcs generalizing i with
  | nil => rfl
  | cons tc rest ih =>
      simp only [execLoop, List.filter_cons]
      by_cases hp : (runCaseExecute exec i tc).passed
      · simp [hp, ih (i + 1), Nat.add_comm]
      · simp [hp, ih (i + 1)]

theorem finishLoop_length (exec : Engine) (i : Nat) (tcs : List TestCase) :
    (finishLoop exec i tcs).1.length = tcs.length := by
  induction tcs generalizing i with
  | nil => rfl
  | cons tc rest ih => simp [finishLoop, ih]

theorem finishLoop_get? (exec : Engine) (i j : Nat) (tcs : List TestCase) :
    (finishLoop exec i tcs).1.get? j =
      (tcs.get? j).map (fun tc => runCaseFinish exec (i + j) tc) := by
  induction tcs generalizing i j with
  | nil => simp [finishLoop]
  | cons tc rest ih =>
      cases j with
      | zero => simp [finishLoop]
      | succ j =>
          simp only [finishLoop, List.get?_cons_succ]
          rw [ih (i + 1) j]
          have : i + 1 + j = i + (j + 1) := by omega
          rw [this]

theorem finishLoop_count (exec : Engine) (i : Nat) (tcs : List TestCase) :
    (finishLoop exec i tcs).2 =
      ((finishLoop exec i tcs).1.filter (fun e => e.passed)).length := by
  induction tcs generalizing i with
  | nil => rfl
  | cons tc rest ih =>
      simp only [finishLoop, List.filter_cons]
      by_cases hp : (runCaseFinish exec i tc).passed
      · simp [hp, ih (i + 1), Nat.add_comm]
      · simp [hp, ih (i + 1)]

/-! ## Helper lemmas on the main-file lookup -/

theorem pickLatest_some_isSome (g : ExamFile) (l : List ExamFile) :
    (pickLatest (some g) l).isSome := by
  induction l generalizing g with
  | nil => rfl
  | cons f rest ih => exact ih _

theorem pickLatest_eq_none {l : List ExamFile} (h : pickLatest none l = none) :
    l = [] := by
  cases l with
  | nil => rfl
  | cons f rest =>
      exfalso
      have := pickLatest_some_isSome f rest
      rw [show pickLatest none (f :: rest) = pickLatest (some f) rest from rfl] at h
      rw [h] at this
      exact Bool.noConfusion this

theorem pickLatest_spec (l : List ExamFile) (acc : Option ExamFile) (f : ExamFile)
    (h : pickLatest acc l = some f) :
    (f ∈ l ∨ acc = some f) ∧
      (∀ g ∈ l, g.updatedAt ≤ f.updatedAt) ∧
      (∀ g, acc = some g → g.updatedAt ≤ f.updatedAt) := by
  induction l generalizing acc with
  | nil =>
      cases acc with
      | none => exact Option.noConfusion h
      | some g =>
          refine ⟨Or.inr h, by simp, ?_⟩
          intro g' hg'
          cases h
          cases hg'
          exact le_refl _
  | cons a rest ih =>
      cases acc with
      | none =>
          have h' : pickLatest (some a) rest = some f := h
          obtain ⟨hmem, hmax, hacc⟩ := ih (some a) h'
          refine ⟨?_, ?_, ?_⟩
          · rcases hmem with hm | hm
            · exact Or.inl (List.mem_cons_of_mem _ hm)
            · exact Or.inl (by rw [Option.some_inj.mp hm]; exact List.mem_cons_self _ _)
          · intro g hg
            rcases List.mem_cons.mp hg with hg | hg
            · subst hg; exact hacc g rfl
            · exact hmax g hg
          · intro g hg; exact Option.noConfusion hg
      | some b =>
          have h' : pickLatest (some (if b.updatedAt < a.updatedAt then a else b)) rest = some f := h
          obtain ⟨hmem, hmax, hacc⟩ := ih _ h'
          have hsel := hacc _ rfl
          by_cases hba : b.updatedAt < a.updatedAt
          · rw [if_pos hba] at hsel
            refine ⟨?_, ?_, ?_⟩
            · rcases hmem with hm | hm
              · exact Or.inl (List.mem_cons_of_mem _ hm)
              · rw [if_pos hba] at hm
                exact Or.inl (by rw [Option.some_inj.mp hm]; exact List.mem_cons_self _ _)
            · intro g hg
              rcases List.mem_cons.mp hg with hg | hg
              · subst hg; exact hsel
              · exact hmax g hg
            · intro g hg
              cases hg
              exact le_trans (le_of_lt hba) hsel
          · rw [if_neg hba] at hsel
            refine ⟨?_, ?_, ?_⟩
            · rcases hmem with hm | hm
              · exact Or.inl (List.mem_cons_of_mem _ hm)
              · rw [if_neg hba] at hm
                exact Or.inr hm
            · intro g hg
              rcases List.mem_cons.mp hg with hg | hg
              · subst hg; exact le_trans (le_of_not_lt hba) hsel
              · exact hmax g hg
            · intro g hg
              cases hg
              exact hsel

theorem findMainFile_spec (files : List ExamFile) (examId userId : Nat)
    (filename : String) (f : ExamFile)
    (h : findMainFile files examId userId filename = some f) :
    f ∈ files ∧ isMainMatch examId userId filename f = true ∧
      (∀ g ∈ files, isMainMatch examId userId filename g = true →
        g.updatedAt ≤ f.updatedAt) := by
  obtain ⟨hmem, hmax, -⟩ := pickLatest_spec _ _ _ h
  rcases hmem with hm | hm
  · exact ⟨(List.mem_filter.mp hm).1, (List.mem_filter.mp hm).2,
      fun g hg hmatch => hmax g (List.mem_filter.mpr ⟨hg, hmatch⟩)⟩
  · exact Option.noConfusion hm

theorem findMainFile_none {files : List ExamFile} {examId userId : Nat}
    {filename : String}
    (h : findMainFile files examId userId filename = none) :
    ∀ g ∈ files, isMainMatch examId userId filename g = false := by
  intro g hg
  have hfilter := pickLatest_eq_none h
  by_contra hne
  have : g ∈ files.filter (isMainMatch examId userId filename) :=
    List.mem_filter.mpr ⟨hg, by revert hne; cases isMainMatch examId userId filename g <;> simp⟩
  rw [hfilter] at this
  exact absurd this (List.not_mem_nil g)

/-! ## Concrete fixtures used by witnesses and counterexamples -/

/-- An execution result printing "2" with exit code 1 (program crashed
after printing the right answer). -/
def rOut2Exit1 : ExecResult :=
  { output := some "2", error := none, exitCode := some 1, executionTime := 5 }

/-- An execution result printing "2" with exit code 0. -/
def rOut2Exit0 : ExecResult :=
  { output := some "2", error := none, exitCode := some 0, executionTime := 5 }

/-- A test case expecting output "2". -/
def tcExp2 : TestCase :=
  { input := some "1+1", expectedOutput := some "2", description := none }

/-- An engine resolving every call with the same result. -/
def engineConst (r : ExecResult) : Engine := fun _ _ => .ok r

/-- An engine that throws on the second call (index 1) and succeeds on
the others. -/
def engineThrow1 : Engine := fun i _ => if i = 1 then .thrown (some "boom") else .ok rOut2Exit0

/-- An engine whose every call throws. -/
def engineBoom : Engine := fun _ _ => .thrown (some "boom")

/-! ## C1 -/

/-- C1 counterexample: in the /execute batch loop a run whose trimmed
output matches the expectation but whose exit code is 1 IS counted as
passed — the /execute comparison never consults the exit code. -/
theorem C1_counterexample :
    (runBatchExecute (engineConst rOut2Exit1) [tcExp2]).passedTests = 1 ∧
      rOut2Exit1.exitCode = some 1 := by
  constructor <;> rfl

/-- C1 (amended): in the /finish grading loop a case passes iff the
trimmed actual output equals the trimmed expected output AND the exit
code is 0; in the /execute batch loop a case passes iff the optionally
trimmed outputs are equal, with the exit code ignored. -/
theorem C1_passed_criteria (exec : Engine) (i : Nat) (tc : TestCase) (r : ExecResult)
    (h : exec i (jsOrElse tc.input "") = .ok r) :
    ((runCaseFinish exec i tc).passed = true ↔
      (jsTrim (jsOrElse r.output "") = jsTrim (jsOrElse tc.expectedOutput "") ∧
        r.exitCode = some 0)) ∧
    ((runCaseExecute exec i tc).passed = true ↔
      r.output.map jsTrim = tc.expectedOutput.map jsTrim) := by
  unfold runCaseFinish runCaseExecute
  rw [h]
  constructor
  · show passedFinish r.output tc.expectedOutput r.exitCode = true ↔ _
    simp [passedFinish]
  · show passedExecute r.output tc.expectedOutput = true ↔ _
    simp [passedExecute]

/-- C1 witness: the engine of the counterexample satisfies the
hypothesis of `C1_passed_criteria`, and at that input the /finish loop
refuses the case (exit code 1) while the /execute loop accepts it. -/
theorem C1_passed_criteria_witness :
    engineConst rOut2Exit1 0 (jsOrElse tcExp2.input "") = .ok rOut2Exit1 ∧
      ((runCaseFinish (engineConst rOut2Exit1) 0 tcExp2).passed = true ↔
        (jsTrim (jsOrElse rOut2Exit1.output "") =
            jsTrim (jsOrElse tcExp2.expectedOutput "") ∧
          rOut2Exit1.exitCode = some 0)) :=
  ⟨rfl, (C1_passed_criteria (engineConst rOut2Exit1) 0 tcExp2 rOut2Exit1 rfl).1⟩

/-! ## C2 -/

/-- C2: a thrown engine-internal error in one case of a batch never
aborts it: both batch runs still produce exactly N per-case results,
the failing case is recorded with passed = false and its error message,
and every case's entry is still computed from its own execution. -/
theorem C2_isolated_case_failure (exec : Engine) (tcs : List TestCase) (j : Nat) (m : String)
    (hj : j < tcs.length)
    (hthrow : exec j (jsOrElse (tcs.get ⟨j, hj⟩).input "") = .thrown (some m))
    (hm : m ≠ "") :
    (runBatchExecute exec tcs).testResults.length = tcs.length ∧
    (runBatchFinish exec tcs).testResults.length = tcs.length ∧
    ((runBatchExecute exec tcs).testResults.get? j).map (fun e => (e.passed, e.error)) =
      some (false, some m) ∧
    ((runBatchFinish exec tcs).testResults.get? j).map (fun e => (e.passed, e.error)) =
      some (false, some m) ∧
    (∀ k, (runBatchExecute exec tcs).testResults.get? k =
      (tcs.get? k).map (fun tc => runCaseExecute exec k tc)) := by
  have hget : tcs.get? j = some (tcs.get ⟨j, hj⟩) := List.get?_eq_get hj
  refine ⟨execLoop_length exec 0 tcs, finishLoop_length exec 0 tcs, ?_, ?_, ?_⟩
  · show ((execLoop exec 0 tcs).1.get? j).map _ = _
    rw [execLoop_get?, hget]
    simp only [Option.map_some']
    unfold runCaseExecute
    rw [Nat.zero_add, hthrow]
    simp [jsOrElse, hm]
  · show ((finishLoop exec 0 tcs).1.get? j).map _ = _
    rw [finishLoop_get?, hget]
    simp only [Option.map_some']
    unfold runCaseFinish
    rw [Nat.zero_add, hthrow]
  · intro k
    show (execLoop exec 0 tcs).1.get? k = _
    rw [execLoop_get?]
    simp [Nat.zero_add]

/-- C2 witness: a batch of three cases whose second throws still
returns three results, with case 2 failed and its message recorded. -/
theorem C2_isolated_case_failure_witness :
    1 < ([tcExp2, tcExp2, tcExp2] : List TestCase).length ∧
    engineThrow1 1 (jsOrElse tcExp2.input "") = .thrown (some "boom") ∧
    (runBatchExecute engineThrow1 [tcExp2, tcExp2, tcExp2]).testResults.length = 3 ∧
    ((runBatchExecute engineThrow1 [tcExp2, tcExp2, tcExp2]).testResults.get? 1).map
        (fun e => (e.passed, e.error)) = some (false, some "boom") := by
  refine ⟨by decide, rfl, ?_, ?_⟩
  · exact (C2_isolated_case_failure engineThrow1 [tcExp2, tcExp2, tcExp2] 1 "boom"
      (by decide) rfl (by decide)).1
  · exact (C2_isolated_case_failure engineThrow1 [tcExp2, tcExp2, tcExp2] 1 "boom"
      (by decide) rfl (by decide)).2.2.1

/-! ## C3 -/

/-- C3: for a non-empty batch, totalTests is the number of cases,
passedTests counts exactly the per-case entries with passed = true, and
the score is passedTests / totalTests * 100, in both the /execute batch
branch and the /finish automatic evaluation. -/
theorem C3_score_invariants (exec : Engine) (tcs : List TestCase) (h : tcs ≠ []) :
    (runBatchExecute exec tcs).totalTests = tcs.length ∧
    (runBatchExecute exec tcs).passedTests =
      ((runBatchExecute exec tcs).testResults.filter (fun e => e.passed)).length ∧
    (runBatchExecute exec tcs).score =
      ((runBatchExecute exec tcs).passedTests : ℚ) /
        ((runBatchExecute exec tcs).totalTests : ℚ) * 100 ∧
    (runBatchFinish exec tcs).testsPasados =
      ((runBatchFinish exec tcs).testResults.filter (fun e => e.passed)).length ∧
    (runBatchFinish exec tcs).puntaje =
      ((runBatchFinish exec tcs).testsPasados : ℚ) / (tcs.length : ℚ) * 100 := by
  refine ⟨rfl, ?_, rfl, ?_, rfl⟩
  · exact execLoop_count exec 0 tcs
  · exact finishLoop_count exec 0 tcs

/-- C3 witness: a concrete two-case batch (one passing, one thrown)
has totalTests 2, passedTests 1 and score 50. -/
theorem C3_score_invariants_witness :
    ([tcExp2, tcExp2] : List TestCase) ≠ [] ∧
    (runBatchExecute engineThrow1 [tcExp2, tcExp2]).passedTests =
      ((runBatchExecute engineThrow1 [tcExp2, tcExp2]).testResults.filter
        (fun e => e.passed)).length ∧
    (runBatchExecute engineThrow1 [tcExp2, tcExp2]).passedTests = 1 ∧
    (runBatchExecute engineThrow1 [tcExp2, tcExp2]).score = 50 := by
  refine ⟨by decide, (C3_score_invariants engineThrow1 [tcExp2, tcExp2] (by decide)).2.1, ?_, ?_⟩
  · rfl
  · show ((1 : ℚ) / (2 : ℚ)) * 100 = 50
    norm_num

/-! ## C4 -/

/-- A syntax validator that accepts everything, used to exhibit that the
/validate route forwards unsupported languages to the service. -/
def validatorOk : String → String → ValidateOutcome := fun _ _ => .ok true []

/-- C4 counterexample: a /validate request with language "ruby" is NOT
rejected with a 400 — the handler calls the validation service with the
unsupported language (the trace of service calls is non-empty). -/
theorem C4_counterexample :
    (validateHandler validatorOk (some "x") (some "ruby")).2 = [("x", "ruby")] ∧
      (validateHandler validatorOk (some "x") (some "ruby")).1 = .ok true [] := by
  constructor <;> rfl

/-- C4 (amended): the /run and /execute handlers reject a language
other than "python"/"javascript" with HTTP 400 before any service call
(empty call trace); the /validate handler performs no language check
and forwards every request with truthy code and language — whatever the
language — to the syntax-validation service. -/
theorem C4_language_validation (exec : Engine) (code language input : Option String)
    (examId : Option Nat) (lookup : Nat → Option ExamRec)
    (testCases : Option (List TestCase)) (customInput : Option String)
    (validator : String → String → ValidateOutcome) (c l : String)
    (hp : language ≠ some "python") (hjs : language ≠ some "javascript")
    (hc : c ≠ "") (hl : l ≠ "") :
    ((runHandler exec code language input examId lookup).2 = [] ∧
      ∃ e, (runHandler exec code language input examId lookup).1 = .badRequest e) ∧
    ((executeHandler exec code language testCases customInput).2 = [] ∧
      ∃ e, (executeHandler exec code language testCases customInput).1 = .badRequest e) ∧
    (validateHandler validator (some c) (some l)).2 = [(c, l)] := by
  have hnl : ¬ (language = some "python" ∨ language = some "javascript") := by
    rintro (h | h) <;> [exact hp h; exact hjs h]
  refine ⟨?_, ?_, ?_⟩
  · unfold runHandler
    by_cases ht : jsTruthy code ∧ jsTruthy language
    · rw [if_neg (not_not_intro ht), if_pos hnl]
      exact ⟨rfl, _, rfl⟩
    · rw [if_pos ht]
      exact ⟨rfl, _, rfl⟩
  · unfold executeHandler
    by_cases ht : jsTruthy code ∧ jsTruthy language
    · rw [if_neg (not_not_intro ht), if_pos hnl]
      exact ⟨rfl, _, rfl⟩
    · rw [if_pos ht]
      exact ⟨rfl, _, rfl⟩
  · unfold validateHandler
    rw [if_pos (by simp [jsTruthy, hc, hl])]
    cases hv : validator c l <;> simp [hv]

/-- C4 witness: language "ruby" with non-empty code is turned away by
/run and /execute without a service call, while /validate calls the
service with it. -/
theorem C4_language_validation_witness :
    (some "ruby" : Option String) ≠ some "python" ∧
    ((runHandler (engineConst rOut2Exit0) (some "x") (some "ruby") none none
        (fun _ => none)).2 = [] ∧
      ∃ e, (runHandler (engineConst rOut2Exit0) (some "x") (some "ruby") none none
        (fun _ => none)).1 = .badRequest e) ∧
    (validateHandler validatorOk (some "x") (some "ruby")).2 = [("x", "ruby")] := by
  refine ⟨by decide, ?_, ?_⟩
  · exact (C4_language_validation (engineConst rOut2Exit0) (some "x") (some "ruby") none
      none (fun _ => none) none none validatorOk "x" "ruby"
      (by decide) (by decide) (by decide) (by decide)).1
  · exact (C4_language_validation (engineConst rOut2Exit0) (some "x") (some "ruby") none
      none (fun _ => none) none none validatorOk "x" "ruby"
      (by decide) (by decide) (by decide) (by decide)).2.2

/-! ## C5 -/

/-- C5 counterexample: a request whose code field is the empty string
is rejected with HTTP 400 by both /run and /execute — the empty string
is falsy in `if (!code ...)`, so empty code is never executed. -/
theorem C5_counterexample :
    runHandler (engineConst rOut2Exit0) (some "") (some "python") none none
        (fun _ => none) =
      (.badRequest "Código y lenguaje son requeridos", []) ∧
    executeHandler (engineConst rOut2Exit0) (some "") (some "python") none none =
      (.badRequest "Código y lenguaje son requeridos", []) := by
  constructor <;> rfl

/-- C5 (amended): for every request whose code field is the empty
string, /run and /execute answer 400 "Código y lenguaje son requeridos"
and make no execution service call at all — empty code is treated as
missing code, not executed. -/
theorem C5_empty_code_rejected (exec : Engine) (language input : Option String)
    (examId : Option Nat) (lookup : Nat → Option ExamRec)
    (testCases : Option (List TestCase)) (customInput : Option String) :
    runHandler exec (some "") language input examId lookup =
      (.badRequest "Código y lenguaje son requeridos", []) ∧
    executeHandler exec (some "") language testCases customInput =
      (.badRequest "Código y lenguaje son requeridos", []) := by
  constructor
  · unfold runHandler
    rw [if_pos (by simp [jsTruthy])]
  · unfold executeHandler
    rw [if_pos (by simp [jsTruthy])]

/-! ## C6 -/

theorem jsOrElse_some_self (s : String) : jsOrElse (some s) "" = s := by
  unfold jsOrElse
  split <;> simp_all

/-- C6: the pass comparison of both routes is invariant under adding
leading/trailing whitespace to either side, and internally
whitespace-sensitive: "2\n" matches expected "2" while "2 3" does not
match expected "23". -/
theorem C6_trim_comparison :
    (∀ (a e p₁ p₂ p₃ p₄ : String),
      (∀ c ∈ p₁.data, isJsWhitespace c = true) →
      (∀ c ∈ p₂.data, isJsWhitespace c = true) →
      (∀ c ∈ p₃.data, isJsWhitespace c = true) →
      (∀ c ∈ p₄.data, isJsWhitespace c = true) →
      passedExecute (some (p₁ ++ a ++ p₂)) (some (p₃ ++ e ++ p₄)) =
          passedExecute (some a) (some e) ∧
        (∀ ec, passedFinish (some (p₁ ++ a ++ p₂)) (some (p₃ ++ e ++ p₄)) ec =
          passedFinish (some a) (some e) ec)) ∧
    passedExecute (some "2\n") (some "2") = true ∧
    passedExecute (some "2 3") (some "23") = false ∧
    (∀ ec, passedFinish (some "2\n") (some "2") ec = (ec == some 0)) ∧
    passedFinish (some "2 3") (some "23") (some 0) = false := by
  refine ⟨?_, by decide, by decide, ?_, by decide⟩
  · intro a e p₁ p₂ p₃ p₄ h₁ h₂ h₃ h₄
    constructor
    · unfold passedExecute
      rw [Option.map_some', Option.map_some', Option.map_some', Option.map_some',
        jsTrim_pad p₁ a p₂ h₁ h₂, jsTrim_pad p₃ e p₄ h₃ h₄]
    · intro ec
      unfold passedFinish
      rw [jsOrElse_some_self, jsOrElse_some_self, jsOrElse_some_self, jsOrElse_some_self,
        jsTrim_pad p₁ a p₂ h₁ h₂, jsTrim_pad p₃ e p₄ h₃ h₄]
  · intro ec
    unfold passedFinish
    rw [jsOrElse_some_self, jsOrElse_some_self]
    rw [show (jsTrim "2\n" == jsTrim "2") = true from rfl, Bool.true_and]

/-- C6 witness: applying the invariance part at concrete whitespace
paddings around "2". -/
theorem C6_trim_comparison_witness :
    (∀ c ∈ (" " : String).data, isJsWhitespace c = true) ∧
    passedExecute (some (" " ++ "2" ++ "\n")) (some ("" ++ "2" ++ "")) =
      passedExecute (some "2") (some "2") ∧
    passedExecute (some "2") (some "2") = true := by
  refine ⟨by decide, ?_, by decide⟩
  exact (C6_trim_comparison.1 "2" "2" " " "\n" "" ""
    (by decide) (by decide) (by decide) (by decide)).1

/-! ## C7 -/

/-- C7: both batch runs preserve the input ordering of the test cases:
the j-th per-case result is exactly the outcome of the j-th test case,
and the result sequence has the same length as the input sequence. -/
theorem C7_order_preserved (exec : Engine) (tcs : List TestCase) (j : Nat)
    (hj : j < tcs.length) :
    (runBatchExecute exec tcs).testResults.length = tcs.length ∧
    (runBatchFinish exec tcs).testResults.length = tcs.length ∧
    (runBatchExecute exec tcs).testResults.get? j =
      some (runCaseExecute exec j (tcs.get ⟨j, hj⟩)) ∧
    (runBatchFinish exec tcs).testResults.get? j =
      some (runCaseFinish exec j (tcs.get ⟨j, hj⟩)) := by
  have hget : tcs.get? j = some (tcs.get ⟨j, hj⟩) := List.get?_eq_get hj
  refine ⟨execLoop_length exec 0 tcs, finishLoop_length exec 0 tcs, ?_, ?_⟩
  · show (execLoop exec 0 tcs).1.get? j = _
    rw [execLoop_get?, hget, Option.map_some', Nat.zero_add]
  · show (finishLoop exec 0 tcs).1.get? j = _
    rw [finishLoop_get?, hget, Option.map_some', Nat.zero_add]

/-- C7 witness: in a concrete three-case batch the second result is the
outcome of the second test case. -/
theorem C7_order_preserved_witness :
    1 < ([tcExp2, tcExp2, tcExp2] : List TestCase).length ∧
    (runBatchExecute engineThrow1 [tcExp2, tcExp2, tcExp2]).testResults.get? 1 =
      some (runCaseExecute engineThrow1 1
        (([tcExp2, tcExp2, tcExp2] : List TestCase).get ⟨1, by decide⟩)) :=
  ⟨by decide,
    (C7_order_preserved engineThrow1 [tcExp2, tcExp2, tcExp2] 1 (by decide)).2.2.1⟩

/-! ## C8 -/

/-- C8 counterexample: in the /execute batch, the entry recorded for a
test case whose execution threw carries neither an actualOutput nor an
executionTime field — so not every per-case entry contains all six
fields. -/
theorem C8_counterexample :
    (runBatchExecute engineBoom [tcExp2]).testResults.map
        (fun e => (e.actualOutput, e.executionTime)) = [(none, none)] ∧
    (runBatchExecute engineBoom [tcExp2]).testResults.map (fun e => e.passed) = [false] := by
  constructor <;> rfl

/-- C8 (amended): every /execute per-case entry contains input,
expectedOutput, passed and error; an entry additionally contains
actualOutput and executionTime exactly when its case resolved normally,
while an entry for a thrown case omits those two fields.  The /finish
per-case entries always contain description, passed, expected, actual,
error and executionTime, also for thrown cases. -/
theorem C8_entry_fields (exec : Engine) (tcs : List TestCase) (j : Nat)
    (hj : j < tcs.length) :
    (∀ r, exec j (jsOrElse (tcs.get ⟨j, hj⟩).input "") = .ok r →
      (runBatchExecute exec tcs).testResults.get? j =
        some { input := (tcs.get ⟨j, hj⟩).input
               expectedOutput := (tcs.get ⟨j, hj⟩).expectedOutput
               actualOutput := r.output.map jsTrim
               passed := passedExecute r.output (tcs.get ⟨j, hj⟩).expectedOutput
               error := r.error
               executionTime := some r.executionTime }) ∧
    (∀ m, exec j (jsOrElse (tcs.get ⟨j, hj⟩).input "") = .thrown m →
      (runBatchExecute exec tcs).testResults.get? j =
        some { input := (tcs.get ⟨j, hj⟩).input
               expectedOutput := (tcs.get ⟨j, hj⟩).expectedOutput
               actualOutput := none
               passed := false
               error := some (jsOrElse m "Error desconocido")
               executionTime := none }) ∧
    (∀ r, exec j (jsOrElse (tcs.get ⟨j, hj⟩).input "") = .ok r →
      (runBatchFinish exec tcs).testResults.get? j =
        some { description := jsOrElse (tcs.get ⟨j, hj⟩).description "Test sin descripción"
               passed := passedFinish r.output (tcs.get ⟨j, hj⟩).expectedOutput r.exitCode
               expected := some (jsTrim (jsOrElse (tcs.get ⟨j, hj⟩).expectedOutput ""))
               actual := jsTrim (jsOrElse r.output "")
               error := r.error
               executionTime := r.executionTime }) ∧
    (∀ m, exec j (jsOrElse (tcs.get ⟨j, hj⟩).input "") = .thrown m →
      (runBatchFinish exec tcs).testResults.get? j =
        some { description := jsOrElse (tcs.get ⟨j, hj⟩).description "Test sin descripción"
               passed := false
               expected := (tcs.get ⟨j, hj⟩).expectedOutput
               actual := ""
               error := m
               executionTime := 0 }) := by
  have hget : tcs.get? j = some (tcs.get ⟨j, hj⟩) := List.get?_eq_get hj
  refine ⟨?_, ?_, ?_, ?_⟩ <;> intro x hx
  · show (execLoop exec 0 tcs).1.get? j = _
    rw [execLoop_get?, hget, Option.map_some', Nat.zero_add]
    unfold runCaseExecute
    rw [hx]
  · show (execLoop exec 0 tcs).1.get? j = _
    rw [execLoop_get?, hget, Option.map_some', Nat.zero_add]
    unfold runCaseExecute
    rw [hx]
  · show (finishLoop exec 0 tcs).1.get? j = _
    rw [finishLoop_get?, hget, Option.map_some', Nat.zero_add]
    unfold runCaseFinish
    rw [hx]
  · show (finishLoop exec 0 tcs).1.get? j = _
    rw [finishLoop_get?, hget, Option.map_some', Nat.zero_add]
    unfold runCaseFinish
    rw [hx]

/-- C8 witness: for a one-case batch whose case throws, the /execute
entry omits actualOutput and executionTime while the /finish entry
still carries every field. -/
theorem C8_entry_fields_witness :
    engineBoom 0 (jsOrElse tcExp2.input "") = .thrown (some "boom") ∧
    (runBatchExecute engineBoom [tcExp2]).testResults.get? 0 =
      some { input := tcExp2.input
             expectedOutput := tcExp2.expectedOutput
             actualOutput := none
             passed := false
             error := some (jsOrElse (some "boom") "Error desconocido")
             executionTime := none } ∧
    (runBatchFinish engineBoom [tcExp2]).testResults.get? 0 =
      some { description := jsOrElse tcExp2.description "Test sin descripción"
             passed := false
             expected := tcExp2.expectedOutput
             actual := ""
             error := some "boom"
             executionTime := 0 } := by
  refine ⟨rfl, ?_, ?_⟩
  · exact (C8_entry_fields engineBoom [tcExp2] 0 (by decide)).2.1 (some "boom") rfl
  · exact (C8_entry_fields engineBoom [tcExp2] 0 (by decide)).2.2.2 (some "boom") rfl

/-! ## C9 -/

/-- C9: when /execute gets a non-null customInput, exactly one
execution is performed, with customInput as stdin; the response does
not depend on any testCases array in the request, is never a batch
result, and on normal engine completion is the single-run result. -/
theorem C9_custom_input_single_run (exec : Engine) (code language : Option String)
    (testCases testCases' : Option (List TestCase)) (s : String)
    (hc : jsTruthy code = true)
    (hl : language = some "python" ∨ language = some "javascript") :
    (executeHandler exec code language testCases (some s)).2 = [s] ∧
    executeHandler exec code language testCases (some s) =
      executeHandler exec code language testCases' (some s) ∧
    (∀ b, (executeHandler exec code language testCases (some s)).1 ≠ .batch b) ∧
    (∀ r, exec 0 s = .ok r →
      (executeHandler exec code language testCases (some s)).1 =
        .single (!jsTruthy r.error) r.output r.error r.exitCode r.executionTime) := by
  have htr : jsTruthy language = true := by
    rcases hl with h | h <;> subst h <;> rfl
  have ht : jsTruthy code ∧ jsTruthy language := ⟨hc, htr⟩
  unfold executeHandler
  rw [if_neg (not_not_intro ht), if_neg (not_not_intro hl)]
  refine ⟨?_, rfl, ?_, ?_⟩
  · cases hv : exec 0 s <;> simp [hv]
  · intro b
    cases hv : exec 0 s <;> simp [hv]
  · intro r h
    simp [h]

/-- C9 witness: a concrete /execute request with customInput "data" and
a test-cases array runs once on "data" and answers with the single-run
result. -/
theorem C9_custom_input_single_run_witness :
    jsTruthy (some "print(1)") = true ∧
    (executeHandler (engineConst rOut2Exit0) (some "print(1)") (some "python")
        (some [tcExp2]) (some "data")).2 = ["data"] ∧
    (executeHandler (engineConst rOut2Exit0) (some "print(1)") (some "python")
        (some [tcExp2]) (some "data")).1 =
      .single (!jsTruthy rOut2Exit0.error) rOut2Exit0.output rOut2Exit0.error
        rOut2Exit0.exitCode rOut2Exit0.executionTime := by
  refine ⟨by decide, ?_, ?_⟩
  · exact (C9_custom_input_single_run (engineConst rOut2Exit0) (some "print(1)")
      (some "python") (some [tcExp2]) none "data" (by decide) (Or.inl rfl)).1
  · exact (C9_custom_input_single_run (engineConst rOut2Exit0) (some "print(1)")
      (some "python") (some [tcExp2]) none "data" (by decide) (Or.inl rfl)).2.2.2
      rOut2Exit0 rfl

/-! ## C10 -/

/-- Reduction of the /finish handler on a programming attempt owned by
the caller and still in progress: everything depends only on the saved
main file, never on the request body. -/
theorem finishHandler_prog (exec : String → Engine) (att : AttemptRec) (uid : Nat)
    (resp : Option (Nat → Option Nat)) (bodyCode : Option String) (ex : ExamRec)
    (files : List ExamFile)
    (huser : att.userId = uid) (hest : att.estado = "en_progreso")
    (htipo : att.examTipo = "programming") :
    finishHandler exec (some att) uid resp bodyCode (some ex) files =
      finishProgramming exec att uid ex files := by
  unfold finishHandler
  simp [huser, hest, htipo]

/-- C10: finishing a programming attempt grades the content of the most
recently updated manual save of main.py (python) / main.js (javascript)
for that exam and user, ignoring any code in the request body; when no
such file exists the handler answers 400 and the attempt stays
"en_progreso". -/
theorem C10_finish_uses_saved_main_file (exec : String → Engine) (att : AttemptRec)
    (uid : Nat) (resp : Option (Nat → Option Nat)) (bodyCode bodyCode' : Option String)
    (ex : ExamRec) (files : List ExamFile)
    (huser : att.userId = uid) (hest : att.estado = "en_progreso")
    (htipo : att.examTipo = "programming") :
    (ex.lenguajeProgramacion = some "python" → mainFileName ex = "main.py") ∧
    (ex.lenguajeProgramacion = some "javascript" → mainFileName ex = "main.js") ∧
    finishHandler exec (some att) uid resp bodyCode (some ex) files =
      finishHandler exec (some att) uid resp bodyCode' (some ex) files ∧
    (findMainFile files att.examId uid (mainFileName ex) = none →
      finishHandler exec (some att) uid resp bodyCode (some ex) files =
        .badRequest ("Debes guardar el archivo principal \"" ++ mainFileName ex ++
          "\" antes de finalizar el examen") ∧
      estadoAfter att (finishHandler exec (some att) uid resp bodyCode (some ex) files) =
        "en_progreso") ∧
    (∀ f, findMainFile files att.examId uid (mainFileName ex) = some f →
      (∃ p t, finishHandler exec (some att) uid resp bodyCode (some ex) files =
          .finishedProg (jsOrElse f.content "") p t) ∧
        f ∈ files ∧ isMainMatch att.examId uid (mainFileName ex) f = true ∧
        (∀ g ∈ files, isMainMatch att.examId uid (mainFileName ex) g = true →
          g.updatedAt ≤ f.updatedAt)) := by
  refine ⟨?_, ?_, ?_, ?_, ?_⟩
  · intro h
    simp [mainFileName, h]
  · intro h
    simp [mainFileName, h]
  · rw [finishHandler_prog exec att uid resp bodyCode ex files huser hest htipo,
      finishHandler_prog exec att uid resp bodyCode' ex files huser hest htipo]
  · intro h0
    have hred : finishHandler exec (some att) uid resp bodyCode (some ex) files =
        .badRequest ("Debes guardar el archivo principal \"" ++ mainFileName ex ++
          "\" antes de finalizar el examen") := by
      rw [finishHandler_prog exec att uid resp bodyCode ex files huser hest htipo]
      unfold finishProgramming
      rw [h0]
    exact ⟨hred, by rw [hred]; exact hest⟩
  · intro f hf
    obtain ⟨hmem, hmatch, hmax⟩ := findMainFile_spec files att.examId uid (mainFileName ex) f hf
    refine ⟨?_, hmem, hmatch, hmax⟩
    rw [finishHandler_prog exec att uid resp bodyCode ex files huser hest htipo]
    unfold finishProgramming
    rw [hf]
    cases hts : ex.testCases with
    | none => exact ⟨none, none, rfl⟩
    | some tcs =>
        by_cases hlen : tcs.length > 0
        · exact ⟨some (runBatchFinish (exec (jsOrElse f.content "")) tcs).puntaje,
            some (runBatchFinish (exec (jsOrElse f.content "")) tcs).testResults,
            by simp [hlen]⟩
        · exact ⟨none, none, by simp [hlen]⟩

/-- A programming attempt fixture. -/
def attW : AttemptRec :=
  { userId := 1, examId := 7, estado := "en_progreso", examTipo := "programming" }

/-- A python programming exam without stored test cases. -/
def exW : ExamRec :=
  { tipo := "programming", lenguajeProgramacion := some "python",
    testCases := none, preguntas := [] }

/-- An older manual save of main.py. -/
def fileOldW : ExamFile :=
  { examId := 7, userId := 1, filename := "main.py", version := "manual",
    content := some "print(1)", updatedAt := 1 }

/-- A newer manual save of main.py. -/
def fileNewW : ExamFile :=
  { examId := 7, userId := 1, filename := "main.py", version := "manual",
    content := some "print(2)", updatedAt := 2 }

/-- C10 witness: with two manual saves of main.py, finishing grades the
content of the newer one, whatever code the request body carries. -/
theorem C10_finish_uses_saved_main_file_witness :
    attW.estado = "en_progreso" ∧
    findMainFile [fileOldW, fileNewW] attW.examId 1 (mainFileName exW) = some fileNewW ∧
    (∃ p t, finishHandler (fun _ => engineConst rOut2Exit0) (some attW) 1 none
        (some "body code is ignored") (some exW) [fileOldW, fileNewW] =
      .finishedProg (jsOrElse fileNewW.content "") p t) := by
  refine ⟨rfl, rfl, ?_⟩
  exact ((C10_finish_uses_saved_main_file (fun _ => engineConst rOut2Exit0) attW 1 none
    (some "body code is ignored") (some "other") exW [fileOldW, fileNewW]
    rfl rfl rfl).2.2.2.2 fileNewW rfl).1

end Examline
